import Mathlib

/-!
Shallow embedding of `src/main.py` (Shapr3D backup/export tool) and proofs
about it.  Bytes are modelled as `Nat`, paths as `List String` (components),
file contents as an inductive `FileData`, the filesystem as an association
list with newest entry first.  Python exceptions that the code swallows are
modelled by total functions returning defaults; the one place where an
exception escapes (archive writing inside the export loops) is modelled with
`Except`, driven by a write-failure oracle in the environment.
-/

/-- Embedding of `sanitize` (main.py:35): replace each of `/`, `\`, `:` by `_`,
character by character. -/
def sanitize (name : String) : String :=
  String.mk (name.data.map (fun c => if c = '/' ∨ c = '\\' ∨ c = ':' then '_' else c))

/-- Python `str.strip(chars)`: drop characters of `bad` from both ends. -/
def py_strip_chars (bad : List Char) (s : String) : String :=
  String.mk (((s.data.dropWhile (fun c => bad.contains c)).reverse.dropWhile
    (fun c => bad.contains c)).reverse)

/-- Python `str.strip()` with no argument: drop whitespace from both ends. -/
def py_strip (s : String) : String :=
  String.mk (((s.data.dropWhile Char.isWhitespace).reverse.dropWhile
    Char.isWhitespace).reverse)

/-- Python `a or b` on strings (empty string is falsy). -/
def py_or_str (a b : String) : String :=
  if a = "" then b else a

/-- Python `a or b` where `a`, `b` are `str`-or-`None` (both `None` and `""`
are falsy). -/
def py_or_opt (a b : Option String) : Option String :=
  match a with
  | some s => if s = "" then b else some s
  | none => b

/-- Python `a or b` on ints (0 is falsy). -/
def py_or_int (a b : Int) : Int :=
  if a = 0 then b else a

/-- Python truthiness of a `str`-or-`None` value (`if not thumb_rel`). -/
def py_truthy_opt : Option String → Bool
  | none => false
  | some s => !(s = "")

/-- Embedding of the dataclass `ProjectMeta` (main.py:79). -/
structure ProjectMeta where
  project_id : String
  title : String
  folder : String
  revision_id : Int
  thumb_rel : Option String
deriving Repr

/-- One raw row of the project table, as stored: every column may be NULL.
The SQL `IFNULL(...)` defaulting of `read_project_meta`'s query is applied
when the row is consumed. -/
structure DbRow where
  title : Option String
  folderPath : Option String
  revisionID : Option Int
  thumbnailLight : Option String
  thumbnailDark : Option String

/-- The metadata store as seen by `read_project_meta`: either the file could
not be opened (`open_db` returned `None`), or it is open and each schema
candidate (index 0: `Projects`/camel-case columns, index 1: lower-case) run
against a project id either fails / finds no row (`none`, as in `_first_row`)
or yields a raw row. -/
inductive Db where
  | unopenable : Db
  | opened (query : Nat → String → Option DbRow) : Db

/-- Embedding of `read_project_meta` (main.py:133): try the two schema
candidates in order, post-process the first row found exactly as the Python
does, and fall back to identifier-as-title defaults when everything fails.
Totality of this function models the fact that every exception is swallowed
(`open_db` and `_first_row` both catch all). -/
def read_project_meta (db : Db) (project_id : String) : ProjectMeta :=
  match db with
  | .unopenable => ProjectMeta.mk project_id project_id "" 0 none
  | .opened query =>
    let row := match query 0 project_id with
      | some r => some r
      | none => query 1 project_id
    match row with
    | none => ProjectMeta.mk project_id project_id "" 0 none
    | some r =>
      let title0 := r.title.getD project_id
      let folder0 := r.folderPath.getD ""
      let revision0 := r.revisionID.getD 0
      let thumb := py_or_opt r.thumbnailDark r.thumbnailLight
      let title := py_or_str (py_strip (py_or_str title0 project_id)) project_id
      let folder := py_or_str folder0 ""
      let revision := py_or_int revision0 0
      ProjectMeta.mk project_id title folder revision thumb

/-- The property "`read_project_meta` finds no row for this identifier":
either the store is unopenable, or both schema candidates come back empty
(table/column missing, or no row for the id). -/
def lookup_fails : Db → String → Prop
  | .unopenable, _ => True
  | .opened query, project_id => query 0 project_id = none ∧ query 1 project_id = none

/-- First index `k ≥ i` (absolute, where `l` is the suffix of the scanned data
starting at `i`) at which `pat` occurs; `none` if there is none.  Helper for
the embedding of Python `bytes.find(pat, start)`. -/
def findAux (pat : List Nat) : List Nat → Nat → Option Nat
  | [], _ => none
  | a :: rest, i =>
    if (a :: rest).take pat.length = pat then some i else findAux pat rest (i + 1)

/-- Embedding of Python `data.find(pat, start)` (with `-1` mapped to `none`):
the least absolute index `k ≥ start` such that `pat` occurs in `data` at
offset `k`. -/
def findFrom (data pat : List Nat) (start : Nat) : Option Nat :=
  findAux pat (data.drop start) start

/-- `pat` occurs in `data` at offset `i`. -/
def matchAt (data pat : List Nat) (i : Nat) : Prop :=
  (data.drop i).take pat.length = pat

instance (data pat : List Nat) (i : Nat) : Decidable (matchAt data pat i) := by
  unfold matchAt; infer_instance

/-- The JPEG start-of-image marker `b"\xff\xd8"` sits at offset `i`. -/
def startMarkerAt (data : List Nat) (i : Nat) : Prop :=
  data[i]? = some 0xff ∧ data[i + 1]? = some 0xd8

/-- The JPEG end-of-image marker `b"\xff\xd9"` sits at offset `i`. -/
def endMarkerAt (data : List Nat) (i : Nat) : Prop :=
  data[i]? = some 0xff ∧ data[i + 1]? = some 0xd9

instance (data : List Nat) (i : Nat) : Decidable (startMarkerAt data i) := by
  unfold startMarkerAt; infer_instance

instance (data : List Nat) (i : Nat) : Decidable (endMarkerAt data i) := by
  unfold endMarkerAt; infer_instance

/-- Embedding of `extract_jpg_image` (main.py:58), as a pure function from the
source file's bytes to the bytes written to the destination: `none` means the
destination is not written at all (the two early-`return` paths), `some out`
means exactly `out` is written.  Totality models "raises no error". -/
def extract_jpg_image (data : List Nat) : Option (List Nat) :=
  match findFrom data [0xff, 0xd8] 0 with
  | none => none
  | some start =>
    match findFrom data [0xff, 0xd9] start with
    | none => none
    | some e => some ((data.drop start).take (e + 2 - start))

/-- Embedding of `make_zip_name` (main.py:178): the path of the exported
`.shapr` file.  The `ensure_dir(out_dir)` side effect creates directories
only, never files, and is not part of the file-level filesystem model. -/
def make_zip_name (base_dir : List String) (title folder : String)
    (revision : Int) (add_revision : Bool) : List String :=
  let folder_safe := py_strip_chars [' ', '_'] (sanitize folder)
  let title_safe := py_or_str (sanitize title) "untitled"
  let out_dir := base_dir ++ [if folder_safe = "" then title_safe else folder_safe]
  let name := if add_revision = true ∧ 0 < revision
    then title_safe ++ " [rev-" ++ toString revision ++ "]" else title_safe
  out_dir ++ [name ++ ".shapr"]

/-- Minimal JSON values, enough for the `.metadata` document built by
`build_metadata`. -/
inductive Json where
  | jstr (s : String)
  | jnum (n : Int)
  | jobj (fields : List (String × Json))

/-- Field lookup in a JSON object (first binding wins, as in a Python dict
serialized with unique keys). -/
def jsonField (j : Json) (key : String) : Option Json :=
  match j with
  | .jobj fields => (fields.find? (fun e => decide (e.1 = key))).map Prod.snd
  | _ => none

/-- The field names of a JSON object, in order. -/
def jsonFieldNames (j : Json) : List String :=
  match j with
  | .jobj fields => fields.map Prod.fst
  | _ => []

/-- Embedding of `build_metadata` (main.py:202) at the JSON-value level: the
dict passed to `json.dumps`.  Serialization to UTF-8 text is abstracted:
`json.dumps(obj, indent=2).encode("utf-8")` is by construction valid UTF-8
and parses back to this object. -/
def build_metadata (project_id : String) (revision : Int) : Json :=
  Json.jobj
    [("remoteID", Json.jstr project_id),
     ("revisionID", Json.jnum (py_or_int revision 0)),
     ("localChangeCount", Json.jnum 0)]

/-- Content of one archive entry: raw bytes, or an (abstracted) serialized
JSON document. -/
inductive EntryContent where
  | raw (bytes : List Nat)
  | json (v : Json)

/-- One named entry of the output archive. -/
structure ZipEntry where
  name : String
  content : EntryContent

/-- Embedding of `write_shapr_zip` (main.py:217), as the sequence of entries
written (in order) into the target archive: the empty `.export_log` marker,
the `.metadata` JSON document, then the workspace payload bytes verbatim
(`zf.write(workspace_path, arcname="workspace")`). -/
def shapr_zip_entries (workspace : List Nat) (project_id : String)
    (revision : Int) : List ZipEntry :=
  [ZipEntry.mk ".export_log" (EntryContent.raw []),
   ZipEntry.mk ".metadata" (EntryContent.json (build_metadata project_id revision)),
   ZipEntry.mk "workspace" (EntryContent.raw workspace)]

/-- Content of one output file: an archive (with its entries) or plain bytes
(the extracted thumbnail). -/
inductive FileData where
  | zip (entries : List ZipEntry)
  | bytes (bs : List Nat)

/-- The output filesystem: newest write first; `fsGet` returns the newest
entry for a path, so prepending models overwriting. -/
def FS : Type := List (List String × FileData)

/-- Read a file. -/
def fsGet (fs : FS) (p : List String) : Option FileData :=
  (List.find? (fun e => decide (e.1 = p)) fs).map Prod.snd

/-- Python `path.exists()` on the output tree. -/
def fsExists (fs : FS) (p : List String) : Bool :=
  (fsGet fs p).isSome

/-- Write (create or overwrite) a file. -/
def fsWrite (fs : FS) (p : List String) (d : FileData) : FS :=
  (p, d) :: fs

/-- The world the exporter runs against: the metadata store, the enumerated
active and trashed projects (identifier and workspace bytes, as produced by
`iter_active_workspaces` / `iter_tempstate_workspaces`), the resources
directory (thumbnail-reference → file bytes, `none` when `src.exists()` is
false), whether the `TempState` root exists, the export destination, and an
oracle saying which file writes fail with an I/O error. -/
structure Env where
  db : Db
  projects : List (String × List Nat)
  tempProjects : List (String × List Nat)
  tempRootExists : Bool
  resources : String → Option (List Nat)
  writeFails : List String → Bool
  exportDir : List String

/-- Embedding of `save_thumbnail_if_any` (main.py:233): returns the new
filesystem and the number of file writes performed (0 or 1).  The
`try/except: pass` around extraction means a failing thumbnail write is
swallowed (no write, no error). -/
def save_thumbnail_if_any (env : Env) (fs : FS) (root_dir : List String)
    (thumb_rel : Option String) : FS × Nat :=
  if py_truthy_opt thumb_rel = false then (fs, 0)
  else
    match thumb_rel with
    | none => (fs, 0)
    | some rel =>
      match env.resources rel with
      | none => (fs, 0)
      | some srcBytes =>
        let dst := root_dir ++ ["thumbnail.jpg"]
        match extract_jpg_image srcBytes with
        | none => (fs, 0)
        | some img =>
          if env.writeFails dst then (fs, 0) else (fsWrite fs dst (FileData.bytes img), 1)

/-- The target path computed for an active project inside
`export_active_projects` (main.py:307). -/
def active_target (env : Env) (add_revision : Bool) (pid : String) : List String :=
  let meta := read_project_meta env.db pid
  make_zip_name (env.exportDir ++ ["Current"]) meta.title meta.folder
    meta.revision_id add_revision

/-- One iteration of the loop in `export_active_projects` (main.py:305-313):
skip when the target exists; otherwise write the archive (an uncaught I/O
failure there aborts with `.error fs`), then best-effort write the thumbnail.
Returns the filesystem and the number of file writes. -/
def active_step (env : Env) (add_revision : Bool) (fs : FS) (pid : String)
    (ws : List Nat) : Except FS (FS × Nat) :=
  let meta := read_project_meta env.db pid
  let target := active_target env add_revision pid
  if fsExists fs target then Except.ok (fs, 0)
  else if env.writeFails target then Except.error fs
  else
    let fs1 := fsWrite fs target
      (FileData.zip (shapr_zip_entries ws meta.project_id meta.revision_id))
    let r := save_thumbnail_if_any env fs1 target.dropLast meta.thumb_rel
    Except.ok (r.1, 1 + r.2)

/-- Embedding of the trashed-title renaming (main.py:335). -/
def temp_title (meta : ProjectMeta) (guid : String) : String :=
  if meta.title ≠ guid then meta.title else "Temp_" ++ guid

/-- The target path computed for a TempState project inside
`export_tempstate_projects` (main.py:338): when `add_revision` is false the
revision passed to `make_zip_name` is forced to 0. -/
def temp_target (env : Env) (add_revision : Bool) (guid : String) : List String :=
  let meta := read_project_meta env.db guid
  make_zip_name (env.exportDir ++ ["Trashed"]) (temp_title meta guid) meta.folder
    (if add_revision then meta.revision_id else 0) add_revision

/-- One iteration of the loop in `export_tempstate_projects`
(main.py:333-343): skip when the target exists; otherwise write the archive
(metadata built from the unforced `meta.revision_id`).  No thumbnail
extraction happens in this loop. -/
def temp_step (env : Env) (add_revision : Bool) (fs : FS) (guid : String)
    (ws : List Nat) : Except FS (FS × Nat) :=
  let meta := read_project_meta env.db guid
  let target := temp_target env add_revision guid
  if fsExists fs target then Except.ok (fs, 0)
  else if env.writeFails target then Except.error fs
  else
    Except.ok (fsWrite fs target
      (FileData.zip (shapr_zip_entries ws guid meta.revision_id)), 1)

/-- Run a per-project step over a list of projects, accumulating the
filesystem and the write count; the first `.error` (an uncaught Python
exception) aborts the whole loop. -/
def run_steps (step : FS → String × List Nat → Except FS (FS × Nat)) :
    List (String × List Nat) → FS → Except FS (FS × Nat)
  | [], fs => Except.ok (fs, 0)
  | p :: rest, fs =>
    match step fs p with
    | Except.error e => Except.error e
    | Except.ok (fs1, w) =>
      match run_steps step rest fs1 with
      | Except.error e => Except.error e
      | Except.ok (fs2, w2) => Except.ok (fs2, w + w2)

/-- Embedding of `export_active_projects` (main.py:290). -/
def export_active_projects (env : Env) (add_revision : Bool) (fs : FS) :
    Except FS (FS × Nat) :=
  run_steps (fun fs p => active_step env add_revision fs p.1 p.2) env.projects fs

/-- Embedding of `export_tempstate_projects` (main.py:316): nothing happens
when the TempState root is absent. -/
def export_tempstate_projects (env : Env) (add_revision : Bool) (fs : FS) :
    Except FS (FS × Nat) :=
  if env.tempRootExists then
    run_steps (fun fs p => temp_step env add_revision fs p.1 p.2) env.tempProjects fs
  else Except.ok (fs, 0)

/-- Embedding of the export part of `main` (main.py:380): active projects
first, then (when requested) TempState projects. -/
def run_full (env : Env) (add_revision include_tempstate : Bool) (fs : FS) :
    Except FS (FS × Nat) :=
  match export_active_projects env add_revision fs with
  | Except.error e => Except.error e
  | Except.ok (fs1, w1) =>
    if include_tempstate then
      match export_tempstate_projects env add_revision fs1 with
      | Except.error e => Except.error e
      | Except.ok (fs2, w2) => Except.ok (fs2, w1 + w2)
    else Except.ok (fs1, w1)

/-- A store that opens but where every candidate query comes back empty. -/
def emptyQuery : Nat → String → Option DbRow := fun _ _ => none

/-- A resources directory with no files. -/
def noResources : String → Option (List Nat) := fun _ => none

/-- A write-failure oracle under which every write succeeds. -/
def noFail : List String → Bool := fun _ => false

/-- A stored row for project `g1`: title `T`, revision 5, a dark-variant
thumbnail reference `t.bin`. -/
def rowG1 : DbRow := DbRow.mk (some "T") (some "") (some 5) none (some "t.bin")

/-- A query that finds `rowG1` for identifier `g1` under the first schema
candidate and nothing otherwise. -/
def queryG1 : Nat → String → Option DbRow :=
  fun cand pid => if cand = 0 ∧ pid = "g1" then some rowG1 else none

/-- A resources directory holding one thumbnail source file `t.bin` whose
bytes are a complete JPEG marker pair. -/
def resG1 : String → Option (List Nat) :=
  fun r => if r = "t.bin" then some [255, 216, 1, 255, 217] else none

/-- World for the C6 witness: one active project, no TempState. -/
def envW6 : Env :=
  Env.mk Db.unopenable [("p1", [1, 2, 3])] [] false noResources noFail ["out"]

/-- Filesystem after the first full run over `envW6`. -/
def fsW6 : FS :=
  [(["out", "Current", "p1", "p1.shapr"], FileData.zip (shapr_zip_entries [1, 2, 3] "p1" 0))]

/-- World for the C7 counterexample: one trashed project `g1` whose metadata
row names a thumbnail resource that exists and contains a JPEG. -/
def envC7 : Env :=
  Env.mk (Db.opened queryG1) [] [("g1", [9, 9])] true resG1 noFail ["out"]

/-- Filesystem after exporting the TempState projects of `envC7`: the archive
alone, no `thumbnail.jpg`. -/
def fsC7 : FS :=
  [(["out", "Trashed", "T", "T [rev-5].shapr"],
    FileData.zip (shapr_zip_entries [9, 9] "g1" 5))]

/-- Write-failure oracle that fails exactly the first C8 project's target. -/
def failFirstA : List String → Bool :=
  fun p => decide (p = ["out", "Current", "a", "a.shapr"])

/-- World for the C8 counterexample: two active projects; writing the first
archive fails, writing the second would succeed. -/
def envC8 : Env :=
  Env.mk Db.unopenable [("a", [1]), ("b", [2])] [] false noResources failFirstA ["out"]

/-- World for the C10 witness: one trashed project `g1` with store revision 5,
exported with `add_revision = false`. -/
def envC10 : Env :=
  Env.mk (Db.opened queryG1) [] [("g1", [9])] true noResources noFail ["out"]

/-- C1: for every identifier absent from the metadata store — and likewise
when the store file is missing or unopenable — `read_project_meta` returns
metadata whose title is the identifier itself, whose revision number is 0,
whose folder is empty and which has no thumbnail reference; being a total
Lean function, it raises nothing to its caller. -/
theorem read_project_meta_default_on_lookup_failure (db : Db) (project_id : String)
    (h : lookup_fails db project_id) :
    read_project_meta db project_id = ProjectMeta.mk project_id project_id "" 0 none := by
  cases db with
  | unopenable => rfl
  | opened query =>
    obtain ⟨h0, h1⟩ := h
    simp [read_project_meta, h0, h1]

/-- Witness for C1 at a concrete store and identifier. -/
theorem read_project_meta_default_witness :
    read_project_meta (Db.opened emptyQuery) "missing-id" =
      ProjectMeta.mk "missing-id" "missing-id" "" 0 none :=
  read_project_meta_default_on_lookup_failure (Db.opened emptyQuery) "missing-id" ⟨rfl, rfl⟩

/-- C2: `sanitize` preserves the length of its input, its output contains
none of `/`, `\`, `:`, and position by position every such character is
replaced by the fixed placeholder `_` while every other character is kept —
nothing is dropped. -/
theorem sanitize_spec (s : String) :
    (sanitize s).length = s.length ∧
    (∀ c, c ∈ (sanitize s).data → c ≠ '/' ∧ c ≠ '\\' ∧ c ≠ ':') ∧
    (∀ (i : Nat) (c : Char), s.data[i]? = some c →
      (sanitize s).data[i]? = some (if c = '/' ∨ c = '\\' ∨ c = ':' then '_' else c)) := by
  refine ⟨?_, ?_, ?_⟩
  · show (s.data.map _).length = s.data.length
    simp
  · intro c hc
    simp only [sanitize] at hc
    obtain ⟨a, -, rfl⟩ := List.mem_map.mp hc
    by_cases ha : a = '/' ∨ a = '\\' ∨ a = ':'
    · rw [if_pos ha]; refine ⟨by decide, by decide, by decide⟩
    · rw [if_neg ha]
      push_neg at ha
      exact ha
  · intro i c hc
    simp only [sanitize]
    rw [List.getElem?_map, hc]
    rfl

/-- Witness for C2 at a concrete string: length is preserved and the `/` at
index 1 is replaced by `_`. -/
theorem sanitize_spec_witness :
    (sanitize "a/b").length = "a/b".length ∧ (sanitize "a/b").data[1]? = some '_' :=
  ⟨(sanitize_spec "a/b").1,
   ((sanitize_spec "a/b").2.2 1 '/' (by decide)).trans (by decide)⟩

/-- C5: the archive written by `write_shapr_zip` has exactly three entries,
in order: the empty `.export_log` marker, the `.metadata` JSON object with
exactly the fields `remoteID`, `revisionID`, `localChangeCount` (the last
always 0), and the `workspace` entry carrying the payload bytes verbatim. -/
theorem shapr_zip_layout (ws : List Nat) (pid : String) (rev : Int) :
    (shapr_zip_entries ws pid rev).length = 3 ∧
    (shapr_zip_entries ws pid rev).map ZipEntry.name =
      [".export_log", ".metadata", "workspace"] ∧
    (shapr_zip_entries ws pid rev).map ZipEntry.content =
      [EntryContent.raw [], EntryContent.json (build_metadata pid rev),
       EntryContent.raw ws] ∧
    jsonFieldNames (build_metadata pid rev) =
      ["remoteID", "revisionID", "localChangeCount"] ∧
    jsonField (build_metadata pid rev) "localChangeCount" = some (Json.jnum 0) :=
  ⟨rfl, rfl, rfl, rfl, rfl⟩

/-- Helper: with `add_revision = false` the file name produced by
`make_zip_name` is the sanitized title (or `untitled`) with the `.shapr`
extension and no revision suffix, whatever the revision value is. -/
theorem make_zip_name_getLast_no_rev (base : List String) (title folder : String)
    (rev : Int) :
    (make_zip_name base title folder rev false).getLast? =
      some (py_or_str (sanitize title) "untitled" ++ ".shapr") := by
  simp only [make_zip_name]
  rw [List.getLast?_concat]
  simp

/-- C9: for a trashed project exported with `add_revision = false`, the
revision handed to `make_zip_name` is forced to 0 and the resulting file name
is exactly the sanitized title plus `.shapr` — no revision suffix — no matter
what revision the store reports. -/
theorem temp_filename_revision_forced_zero (env : Env) (guid : String) :
    temp_target env false guid =
      make_zip_name (env.exportDir ++ ["Trashed"])
        (temp_title (read_project_meta env.db guid) guid)
        (read_project_meta env.db guid).folder 0 false ∧
    (temp_target env false guid).getLast? =
      some (py_or_str (sanitize (temp_title (read_project_meta env.db guid) guid))
        "untitled" ++ ".shapr") := by
  refine ⟨rfl, ?_⟩
  show (make_zip_name _ _ _ _ _).getLast? = _
  exact make_zip_name_getLast_no_rev _ _ _ _

/-- Helper: a successful `findAux` search starting at absolute index `i` over
the suffix `l` yields an occurrence at an index `k ≥ i`, and no occurrence in
between. -/
theorem findAux_some (pat : List Nat) :
    ∀ (l : List Nat) (i k : Nat), findAux pat l i = some k →
      i ≤ k ∧ (l.drop (k - i)).take pat.length = pat ∧
        ∀ j, i ≤ j → j < k → ¬ (l.drop (j - i)).take pat.length = pat
  | [], i, k => by intro h; simp [findAux] at h
  | a :: rest, i, k => by
    intro h
    rw [findAux] at h
    by_cases h0 : (a :: rest).take pat.length = pat
    · rw [if_pos h0] at h
      obtain rfl : i = k := Option.some.inj h
      exact ⟨le_refl i, by simpa using h0, fun j h1 h2 => absurd (lt_of_le_of_lt h1 h2) (lt_irrefl i)⟩
    · rw [if_neg h0] at h
      obtain ⟨hik, hocc, hmin⟩ := findAux_some pat rest (i + 1) k h
      refine ⟨by omega, ?_, ?_⟩
      · have hk : k - i = (k - (i + 1)) + 1 := by omega
        rw [hk, List.drop_succ_cons]
        exact hocc
      · intro j h1 h2
        rcases Nat.eq_or_lt_of_le h1 with rfl | h1'
        · simpa using h0
        · have hj : j - i = (j - (i + 1)) + 1 := by omega
          rw [hj, List.drop_succ_cons]
          exact hmin j h1' h2

/-- Helper: `findAux` finds the least occurrence at or after `i`. -/
theorem findAux_eq_some (pat : List Nat) (hpat : pat ≠ []) :
    ∀ (l : List Nat) (i k : Nat), i ≤ k →
      (l.drop (k - i)).take pat.length = pat →
      (∀ j, i ≤ j → j < k → ¬ (l.drop (j - i)).take pat.length = pat) →
      findAux pat l i = some k
  | [], i, k => by
    intro h1 h2 h3
    exfalso
    apply hpat
    rw [← h2]
    simp
  | a :: rest, i, k => by
    intro h1 h2 h3
    rw [findAux]
    by_cases h0 : (a :: rest).take pat.length = pat
    · rw [if_pos h0]
      rcases Nat.eq_or_lt_of_le h1 with rfl | h1'
      · rfl
      · exact absurd (by simpa using h0) (h3 i (le_refl i) h1')
    · rw [if_neg h0]
      have hik : i ≠ k := by
        intro hik
        subst hik
        exact h0 (by simpa using h2)
      apply findAux_eq_some pat hpat rest (i + 1) k (by omega)
      · have hk : k - i = (k - (i + 1)) + 1 := by omega
        rw [hk, List.drop_succ_cons] at h2
        exact h2
      · intro j hj1 hj2
        have := h3 j (by omega) hj2
        have hj : j - i = (j - (i + 1)) + 1 := by omega
        rw [hj, List.drop_succ_cons] at this
        exact this

/-- Helper: `findAux` finds nothing when there is no occurrence at or after
`i`. -/
theorem findAux_eq_none (pat : List Nat) :
    ∀ (l : List Nat) (i : Nat),
      (∀ j, i ≤ j → ¬ (l.drop (j - i)).take pat.length = pat) →
      findAux pat l i = none
  | [], i => by intro h; rfl
  | a :: rest, i => by
    intro h
    rw [findAux]
    have h0 : ¬ (a :: rest).take pat.length = pat := by
      have := h i (le_refl i)
      simpa using this
    rw [if_neg h0]
    apply findAux_eq_none pat rest (i + 1)
    intro j hj
    have := h j (by omega)
    have hji : j - i = (j - (i + 1)) + 1 := by omega
    rw [hji, List.drop_succ_cons] at this
    exact this

/-- Helper: what a successful `findFrom` search means, in terms of `matchAt`:
an occurrence at `k ≥ start` and none between `start` and `k`. -/
theorem findFrom_some (data pat : List Nat) (start k : Nat)
    (h : findFrom data pat start = some k) :
    start ≤ k ∧ matchAt data pat k ∧ ∀ j, start ≤ j → j < k → ¬ matchAt data pat j := by
  obtain ⟨h1, h2, h3⟩ := findAux_some pat (data.drop start) start k h
  have hdd : ∀ m : Nat, start ≤ m → (data.drop start).drop (m - start) = data.drop m := by
    intro m hm
    rw [List.drop_drop]
    congr 1
    omega
  refine ⟨h1, ?_, ?_⟩
  · unfold matchAt
    rw [← hdd k h1]
    exact h2
  · intro j hj1 hj2 hc
    apply h3 j hj1 hj2
    unfold matchAt at hc
    rw [hdd j hj1]
    exact hc

/-- Helper: `findFrom` returns exactly the least occurrence of a nonempty
pattern at or after `start`. -/
theorem findFrom_eq_some (data pat : List Nat) (start k : Nat) (hpat : pat ≠ [])
    (h1 : start ≤ k) (h2 : matchAt data pat k)
    (h3 : ∀ j, start ≤ j → j < k → ¬ matchAt data pat j) :
    findFrom data pat start = some k := by
  have hdd : ∀ m : Nat, start ≤ m → (data.drop start).drop (m - start) = data.drop m := by
    intro m hm
    rw [List.drop_drop]
    congr 1
    omega
  apply findAux_eq_some pat hpat (data.drop start) start k h1
  · rw [hdd k h1]
    exact h2
  · intro j hj1 hj2 hc
    apply h3 j hj1 hj2
    unfold matchAt
    rw [← hdd j hj1]
    exact hc

/-- Helper: `findFrom` returns `none` when the pattern has no occurrence at or
after `start`. -/
theorem findFrom_eq_none (data pat : List Nat) (start : Nat)
    (h : ∀ j, start ≤ j → ¬ matchAt data pat j) :
    findFrom data pat start = none := by
  have hdd : ∀ m : Nat, start ≤ m → (data.drop start).drop (m - start) = data.drop m := by
    intro m hm
    rw [List.drop_drop]
    congr 1
    omega
  apply findAux_eq_none pat (data.drop start) start
  intro j hj hc
  apply h j hj
  unfold matchAt
  rw [← hdd j hj]
  exact hc

/-- Helper: a two-byte window equals `[a, b]` exactly when the two positions
hold `a` and `b`. -/
theorem take_two_eq_iff (l : List Nat) (a b : Nat) :
    l.take 2 = [a, b] ↔ l[0]? = some a ∧ l[1]? = some b := by
  match l with
  | [] => simp
  | [x] => simp
  | x :: y :: t => simp [List.take_succ_cons]

/-- Helper: occurrence of a two-byte pattern, elementwise. -/
theorem matchAt_pair (data : List Nat) (a b i : Nat) :
    matchAt data [a, b] i ↔ data[i]? = some a ∧ data[i + 1]? = some b := by
  unfold matchAt
  rw [show ([a, b] : List Nat).length = 2 from rfl, take_two_eq_iff]
  rw [List.getElem?_drop, List.getElem?_drop]
  constructor
  · intro ⟨h1, h2⟩
    constructor
    · simpa using h1
    · simpa using h2
  · intro ⟨h1, h2⟩
    constructor
    · simpa using h1
    · simpa using h2

/-- Helper: the start marker sits at `i` exactly when `[0xff, 0xd8]` occurs at
`i`. -/
theorem startMarkerAt_iff (data : List Nat) (i : Nat) :
    startMarkerAt data i ↔ matchAt data [0xff, 0xd8] i :=
  (matchAt_pair data 0xff 0xd8 i).symm

/-- Helper: the end marker sits at `i` exactly when `[0xff, 0xd9]` occurs at
`i`. -/
theorem endMarkerAt_iff (data : List Nat) (i : Nat) :
    endMarkerAt data i ↔ matchAt data [0xff, 0xd9] i :=
  (matchAt_pair data 0xff 0xd9 i).symm

/-- Helper: a two-byte marker can only sit strictly inside the data. -/
theorem startMarkerAt_lt (data : List Nat) (i : Nat) (h : startMarkerAt data i) :
    i < data.length :=
  (List.getElem?_eq_some.mp h.1).1

/-- Helper: a two-byte marker can only sit strictly inside the data. -/
theorem endMarkerAt_lt (data : List Nat) (i : Nat) (h : endMarkerAt data i) :
    i < data.length :=
  (List.getElem?_eq_some.mp h.1).1

/-- C3: when the data holds a start-of-image marker (first one at `s`) and an
end-of-image marker at or after it (first such at `e`), extraction writes to
the destination exactly the bytes of the region `[s, e + 2)` — byte for byte,
nothing outside it. -/
theorem extract_jpg_region (data : List Nat) (s e : Nat)
    (hs : startMarkerAt data s)
    (hs_first : ∀ j, j < s → ¬ startMarkerAt data j)
    (hse : s ≤ e)
    (he : endMarkerAt data e)
    (he_first : ∀ j, j < e → s ≤ j → ¬ endMarkerAt data j) :
    extract_jpg_image data = some ((data.drop s).take (e + 2 - s)) := by
  have h1 : findFrom data [0xff, 0xd8] 0 = some s := by
    apply findFrom_eq_some data [0xff, 0xd8] 0 s (by simp) (Nat.zero_le s)
    · exact (startMarkerAt_iff data s).mp hs
    · intro j _ hj hc
      exact hs_first j hj ((startMarkerAt_iff data j).mpr hc)
  have h2 : findFrom data [0xff, 0xd9] s = some e := by
    apply findFrom_eq_some data [0xff, 0xd9] s e (by simp) hse
    · exact (endMarkerAt_iff data e).mp he
    · intro j hj1 hj2 hc
      exact he_first j hj2 hj1 ((endMarkerAt_iff data j).mpr hc)
  unfold extract_jpg_image
  rw [h1]
  dsimp only
  rw [h2]

/-- Witness for C3 on concrete bytes: the region from the first `FF D8`
through the first following `FF D9` inclusive is extracted, nothing else. -/
theorem extract_jpg_region_witness :
    extract_jpg_image [1, 255, 216, 7, 255, 217, 9] = some [255, 216, 7, 255, 217] := by
  have h := extract_jpg_region [1, 255, 216, 7, 255, 217, 9] 1 4 (by decide) (by decide)
    (by decide) (by decide) (by decide)
  rw [h]
  rfl

/-- C4: when no start marker is present at all, and likewise when the first
start marker at `s` is followed by no end marker anywhere at or after `s`,
extraction returns `none` — no write happens, and (the function being total)
no error is raised. -/
theorem extract_jpg_noop (data : List Nat) :
    ((∀ j, j < data.length → ¬ startMarkerAt data j) → extract_jpg_image data = none) ∧
    (∀ s, startMarkerAt data s → (∀ j, j < s → ¬ startMarkerAt data j) →
      (∀ j, j < data.length → s ≤ j → ¬ endMarkerAt data j) →
      extract_jpg_image data = none) := by
  constructor
  · intro h
    have h1 : findFrom data [0xff, 0xd8] 0 = none := by
      apply findFrom_eq_none
      intro j _ hc
      have hj := (startMarkerAt_iff data j).mpr hc
      exact h j (startMarkerAt_lt data j hj) hj
    unfold extract_jpg_image
    rw [h1]
  · intro s hs hs_first hne
    have h1 : findFrom data [0xff, 0xd8] 0 = some s := by
      apply findFrom_eq_some data [0xff, 0xd8] 0 s (by simp) (Nat.zero_le s)
      · exact (startMarkerAt_iff data s).mp hs
      · intro j _ hj hc
        exact hs_first j hj ((startMarkerAt_iff data j).mpr hc)
    have h2 : findFrom data [0xff, 0xd9] s = none := by
      apply findFrom_eq_none
      intro j hj hc
      have hj' := (endMarkerAt_iff data j).mpr hc
      exact hne j (endMarkerAt_lt data j hj') hj hj'
    unfold extract_jpg_image
    rw [h1]
    dsimp only
    rw [h2]

/-- Witness for C4 on concrete bytes: a start marker with no end marker after
it yields no output. -/
theorem extract_jpg_noop_witness :
    extract_jpg_image [255, 216, 3] = none :=
  (extract_jpg_noop [255, 216, 3]).2 0 (by decide) (by decide) (by decide)

/-- Helper: a freshly written file exists. -/
theorem fsExists_write_self (fs : FS) (p : List String) (d : FileData) :
    fsExists (fsWrite fs p d) p = true := by
  unfold fsExists fsGet fsWrite
  rw [List.find?_cons_of_pos _ (by simp)]
  rfl

/-- Helper: writing one file never removes another. -/
theorem fsExists_write_mono (fs : FS) (p q : List String) (d : FileData)
    (h : fsExists fs q = true) : fsExists (fsWrite fs p d) q = true := by
  unfold fsExists fsGet fsWrite at *
  by_cases hpq : p = q
  · subst hpq
    rw [List.find?_cons_of_pos _ (by simp)]
    rfl
  · rw [List.find?_cons_of_neg _ (by simp [hpq])]
    exact h

/-- Helper: the best-effort thumbnail save never removes a file. -/
theorem save_thumbnail_mono (env : Env) (fs : FS) (root : List String)
    (t : Option String) (q : List String) (h : fsExists fs q = true) :
    fsExists (save_thumbnail_if_any env fs root t).1 q = true := by
  unfold save_thumbnail_if_any
  dsimp only
  split
  · exact h
  · split
    · exact h
    · split
      · exact h
      · split
        · exact h
        · split
          · exact h
          · exact fsExists_write_mono fs _ q _ h

/-- Helper: the three possible outcomes of one active-project iteration:
skip (target already present), abort (archive write failed), or a successful
archive write followed by the best-effort thumbnail step. -/
theorem active_step_ok_cases (env : Env) (ar : Bool) (fs : FS) (pid : String)
    (ws : List Nat) (fs' : FS) (w : Nat)
    (h : active_step env ar fs pid ws = Except.ok (fs', w)) :
    (fs' = fs ∧ fsExists fs (active_target env ar pid) = true) ∨
    fs' = (save_thumbnail_if_any env
      (fsWrite fs (active_target env ar pid)
        (FileData.zip (shapr_zip_entries ws (read_project_meta env.db pid).project_id
          (read_project_meta env.db pid).revision_id)))
      (active_target env ar pid).dropLast (read_project_meta env.db pid).thumb_rel).1 := by
  simp only [active_step] at h
  split at h
  · left
    simp only [Except.ok.injEq, Prod.mk.injEq] at h
    exact ⟨h.1.symm, by assumption⟩
  · split at h
    · simp at h
    · right
      simp only [Except.ok.injEq, Prod.mk.injEq] at h
      exact h.1.symm

/-- Helper: an active-project iteration whose target already exists is a
skip. -/
theorem active_step_skip (env : Env) (ar : Bool) (fs : FS) (pid : String)
    (ws : List Nat) (h : fsExists fs (active_target env ar pid) = true) :
    active_step env ar fs pid ws = Except.ok (fs, 0) := by
  simp only [active_step]
  rw [if_pos h]

/-- Helper: a successful active-project iteration leaves its target on disk. -/
theorem active_step_target (env : Env) (ar : Bool) (fs : FS) (pid : String)
    (ws : List Nat) (fs' : FS) (w : Nat)
    (h : active_step env ar fs pid ws = Except.ok (fs', w)) :
    fsExists fs' (active_target env ar pid) = true := by
  rcases active_step_ok_cases env ar fs pid ws fs' w h with ⟨rfl, hex⟩ | rfl
  · exact hex
  · exact save_thumbnail_mono env _ _ _ _ (fsExists_write_self fs _ _)

/-- Helper: a successful active-project iteration never removes a file. -/
theorem active_step_mono (env : Env) (ar : Bool) (fs : FS) (pid : String)
    (ws : List Nat) (fs' : FS) (w : Nat)
    (h : active_step env ar fs pid ws = Except.ok (fs', w))
    (q : List String) (hq : fsExists fs q = true) : fsExists fs' q = true := by
  rcases active_step_ok_cases env ar fs pid ws fs' w h with ⟨rfl, -⟩ | rfl
  · exact hq
  · exact save_thumbnail_mono env _ _ _ _ (fsExists_write_mono fs _ q _ hq)

/-- Helper: the three possible outcomes of one TempState iteration: skip,
abort, or exactly one archive write. -/
theorem temp_step_ok_cases (env : Env) (ar : Bool) (fs : FS) (guid : String)
    (ws : List Nat) (fs' : FS) (w : Nat)
    (h : temp_step env ar fs guid ws = Except.ok (fs', w)) :
    (fs' = fs ∧ fsExists fs (temp_target env ar guid) = true) ∨
    fs' = fsWrite fs (temp_target env ar guid)
      (FileData.zip (shapr_zip_entries ws guid (read_project_meta env.db guid).revision_id)) := by
  simp only [temp_step] at h
  split at h
  · left
    simp only [Except.ok.injEq, Prod.mk.injEq] at h
    exact ⟨h.1.symm, by assumption⟩
  · split at h
    · simp at h
    · right
      simp only [Except.ok.injEq, Prod.mk.injEq] at h
      exact h.1.symm

/-- Helper: a TempState iteration whose target already exists is a skip. -/
theorem temp_step_skip (env : Env) (ar : Bool) (fs : FS) (guid : String)
    (ws : List Nat) (h : fsExists fs (temp_target env ar guid) = true) :
    temp_step env ar fs guid ws = Except.ok (fs, 0) := by
  simp only [temp_step]
  rw [if_pos h]

/-- Helper: a successful TempState iteration leaves its target on disk. -/
theorem temp_step_target (env : Env) (ar : Bool) (fs : FS) (guid : String)
    (ws : List Nat) (fs' : FS) (w : Nat)
    (h : temp_step env ar fs guid ws = Except.ok (fs', w)) :
    fsExists fs' (temp_target env ar guid) = true := by
  rcases temp_step_ok_cases env ar fs guid ws fs' w h with ⟨rfl, hex⟩ | rfl
  · exact hex
  · exact fsExists_write_self fs _ _

/-- Helper: a successful TempState iteration never removes a file. -/
theorem temp_step_mono (env : Env) (ar : Bool) (fs : FS) (guid : String)
    (ws : List Nat) (fs' : FS) (w : Nat)
    (h : temp_step env ar fs guid ws = Except.ok (fs', w))
    (q : List String) (hq : fsExists fs q = true) : fsExists fs' q = true := by
  rcases temp_step_ok_cases env ar fs guid ws fs' w h with ⟨rfl, -⟩ | rfl
  · exact hq
  · exact fsExists_write_mono fs _ q _ hq

/-- Helper: a successful export loop never removes a file, provided the step
never does. -/
theorem run_steps_mono (step : FS → String × List Nat → Except FS (FS × Nat))
    (hmono : ∀ fs p fs' w, step fs p = Except.ok (fs', w) →
      ∀ q, fsExists fs q = true → fsExists fs' q = true) :
    ∀ (ps : List (String × List Nat)) (fs fs' : FS) (w : Nat),
      run_steps step ps fs = Except.ok (fs', w) →
      ∀ q, fsExists fs q = true → fsExists fs' q = true := by
  intro ps
  induction ps with
  | nil =>
    intro fs fs' w h q hq
    simp only [run_steps, Except.ok.injEq, Prod.mk.injEq] at h
    rw [← h.1]
    exact hq
  | cons p rest ih =>
    intro fs fs' w h q hq
    rw [run_steps] at h
    cases hstep : step fs p with
    | error e => rw [hstep] at h; simp at h
    | ok r =>
      obtain ⟨fs1, w1⟩ := r
      rw [hstep] at h
      dsimp only at h
      cases hrest : run_steps step rest fs1 with
      | error e => rw [hrest] at h; simp at h
      | ok r2 =>
        obtain ⟨fs2, w2⟩ := r2
        rw [hrest] at h
        simp only [Except.ok.injEq, Prod.mk.injEq] at h
        rw [← h.1]
        exact ih fs1 fs2 w2 hrest q (hmono fs p fs1 w1 hstep q hq)

/-- Helper: after a successful export loop, every project's target file
exists, provided the step leaves its own target behind and never removes
files. -/
theorem run_steps_targets (step : FS → String × List Nat → Except FS (FS × Nat))
    (tgt : String × List Nat → List String)
    (hmono : ∀ fs p fs' w, step fs p = Except.ok (fs', w) →
      ∀ q, fsExists fs q = true → fsExists fs' q = true)
    (htgt : ∀ fs p fs' w, step fs p = Except.ok (fs', w) →
      fsExists fs' (tgt p) = true) :
    ∀ (ps : List (String × List Nat)) (fs fs' : FS) (w : Nat),
      run_steps step ps fs = Except.ok (fs', w) →
      ∀ p, p ∈ ps → fsExists fs' (tgt p) = true := by
  intro ps
  induction ps with
  | nil => intro fs fs' w h p hp; simp at hp
  | cons p0 rest ih =>
    intro fs fs' w h p hp
    rw [run_steps] at h
    cases hstep : step fs p0 with
    | error e => rw [hstep] at h; simp at h
    | ok r =>
      obtain ⟨fs1, w1⟩ := r
      rw [hstep] at h
      dsimp only at h
      cases hrest : run_steps step rest fs1 with
      | error e => rw [hrest] at h; simp at h
      | ok r2 =>
        obtain ⟨fs2, w2⟩ := r2
        rw [hrest] at h
        simp only [Except.ok.injEq, Prod.mk.injEq] at h
        rcases List.mem_cons.mp hp with rfl | hp'
        · rw [← h.1]
          exact run_steps_mono step hmono rest fs1 fs2 w2 hrest (tgt p)
            (htgt fs p fs1 w1 hstep)
        · rw [← h.1]
          exact ih fs1 fs2 w2 hrest p hp'

/-- Helper: when every project's target already exists, the export loop is a
pure skip pass: no writes, filesystem unchanged, provided the step skips on an
existing target. -/
theorem run_steps_all_skip (step : FS → String × List Nat → Except FS (FS × Nat))
    (tgt : String × List Nat → List String)
    (hskip : ∀ fs p, fsExists fs (tgt p) = true → step fs p = Except.ok (fs, 0)) :
    ∀ (ps : List (String × List Nat)) (fs : FS),
      (∀ p, p ∈ ps → fsExists fs (tgt p) = true) →
      run_steps step ps fs = Except.ok (fs, 0) := by
  intro ps
  induction ps with
  | nil => intro fs h; rfl
  | cons p0 rest ih =>
    intro fs h
    rw [run_steps]
    rw [hskip fs p0 (h p0 (List.mem_cons_self p0 rest))]
    dsimp only
    rw [ih fs (fun p hp => h p (List.mem_cons_of_mem p0 hp))]

/-- Helper: a successful active-projects export never removes a file. -/
theorem export_active_mono (env : Env) (ar : Bool) (fs fs' : FS) (w : Nat)
    (h : export_active_projects env ar fs = Except.ok (fs', w))
    (q : List String) (hq : fsExists fs q = true) : fsExists fs' q = true :=
  run_steps_mono _
    (fun fs p fs' w hs q hq => active_step_mono env ar fs p.1 p.2 fs' w hs q hq)
    env.projects fs fs' w h q hq

/-- Helper: after a successful active-projects export every active target
exists. -/
theorem export_active_targets (env : Env) (ar : Bool) (fs fs' : FS) (w : Nat)
    (h : export_active_projects env ar fs = Except.ok (fs', w)) :
    ∀ p, p ∈ env.projects → fsExists fs' (active_target env ar p.1) = true :=
  run_steps_targets _ (fun p => active_target env ar p.1)
    (fun fs p fs' w hs q hq => active_step_mono env ar fs p.1 p.2 fs' w hs q hq)
    (fun fs p fs' w hs => active_step_target env ar fs p.1 p.2 fs' w hs)
    env.projects fs fs' w h

/-- Helper: when every active target exists, the active export pass writes
nothing. -/
theorem export_active_all_skip (env : Env) (ar : Bool) (fs : FS)
    (h : ∀ p, p ∈ env.projects → fsExists fs (active_target env ar p.1) = true) :
    export_active_projects env ar fs = Except.ok (fs, 0) :=
  run_steps_all_skip _ (fun p => active_target env ar p.1)
    (fun fs p hp => active_step_skip env ar fs p.1 p.2 hp) env.projects fs h

/-- Helper: a successful TempState export never removes a file. -/
theorem export_temp_mono (env : Env) (ar : Bool) (fs fs' : FS) (w : Nat)
    (h : export_tempstate_projects env ar fs = Except.ok (fs', w))
    (q : List String) (hq : fsExists fs q = true) : fsExists fs' q = true := by
  unfold export_tempstate_projects at h
  split at h
  · exact run_steps_mono _
      (fun fs p fs' w hs q hq => temp_step_mono env ar fs p.1 p.2 fs' w hs q hq)
      env.tempProjects fs fs' w h q hq
  · simp only [Except.ok.injEq, Prod.mk.injEq] at h
    rw [← h.1]
    exact hq

/-- Helper: a successful TempState export pass, re-run on its own result,
writes nothing. -/
theorem export_temp_rerun (env : Env) (ar : Bool) (fs fs' : FS) (w : Nat)
    (h : export_tempstate_projects env ar fs = Except.ok (fs', w)) :
    export_tempstate_projects env ar fs' = Except.ok (fs', 0) := by
  unfold export_tempstate_projects at h ⊢
  split at h
  · rw [if_pos (by assumption)]
    apply run_steps_all_skip _ (fun p => temp_target env ar p.1)
      (fun fs p hp => temp_step_skip env ar fs p.1 p.2 hp) env.tempProjects fs'
    exact run_steps_targets _ (fun p => temp_target env ar p.1)
      (fun fs p fs' w hs q hq => temp_step_mono env ar fs p.1 p.2 fs' w hs q hq)
      (fun fs p fs' w hs => temp_step_target env ar fs p.1 p.2 fs' w hs)
      env.tempProjects fs fs' w h
  · simp only [Except.ok.injEq, Prod.mk.injEq] at h
    rw [← h.1]
    rw [if_neg (by assumption)]

/-- C6: running the export a second time against an unchanged source performs
zero new writes — every target computed on the second run already exists and
is skipped — and the on-disk contents after the second run are identical
(the write count of the second run is 0 and its final filesystem is exactly
the first run's). -/
theorem export_rerun_idempotent (env : Env) (ar it : Bool) (fs fs1 : FS) (w : Nat)
    (h : run_full env ar it fs = Except.ok (fs1, w)) :
    run_full env ar it fs1 = Except.ok (fs1, 0) := by
  unfold run_full at h ⊢
  cases hA : export_active_projects env ar fs with
  | error e => rw [hA] at h; simp at h
  | ok rA =>
    obtain ⟨fsA, wA⟩ := rA
    rw [hA] at h
    have hTgtsA := export_active_targets env ar fs fsA wA hA
    dsimp only at h
    cases it with
    | false =>
      rw [if_neg (by simp)] at h
      simp only [Except.ok.injEq, Prod.mk.injEq] at h
      obtain ⟨h1, -⟩ := h
      subst h1
      have hA2 : export_active_projects env ar fsA = Except.ok (fsA, 0) :=
        export_active_all_skip env ar fsA hTgtsA
      rw [hA2]
      dsimp only
      rw [if_neg (by simp)]
    | true =>
      rw [if_pos rfl] at h
      cases hT : export_tempstate_projects env ar fsA with
      | error e => rw [hT] at h; simp at h
      | ok rT =>
        obtain ⟨fsB, wB⟩ := rT
        rw [hT] at h
        dsimp only at h
        simp only [Except.ok.injEq, Prod.mk.injEq] at h
        obtain ⟨h1, -⟩ := h
        subst h1
        have hTgtsA2 : ∀ p, p ∈ env.projects →
            fsExists fsB (active_target env ar p.1) = true :=
          fun p hp => export_temp_mono env ar fsA fsB wB hT _ (hTgtsA p hp)
        have hA2 : export_active_projects env ar fsB = Except.ok (fsB, 0) :=
          export_active_all_skip env ar fsB hTgtsA2
        have hT2 : export_tempstate_projects env ar fsB = Except.ok (fsB, 0) :=
          export_temp_rerun env ar fsA fsB wB hT
        rw [hA2]
        dsimp only
        rw [if_pos rfl, hT2]

/-- Witness for C6: a concrete first run over `envW6` produces `fsW6` with one
write; the theorem then gives a second run with zero writes and the same
filesystem. -/
theorem export_rerun_idempotent_witness :
    run_full envW6 true false fsW6 = Except.ok (fsW6, 0) :=
  export_rerun_idempotent envW6 true false [] fsW6 1 rfl

/-- C7 amended: the TempState per-project step is NOT the same as the active
one — it never extracts a thumbnail.  Its only outcomes are abort, skip, or
exactly one write: the archive itself. -/
theorem temp_step_no_thumbnail (env : Env) (ar : Bool) (fs : FS) (guid : String)
    (ws : List Nat) :
    temp_step env ar fs guid ws = Except.ok (fs, 0) ∨
    temp_step env ar fs guid ws = Except.error fs ∨
    temp_step env ar fs guid ws = Except.ok (fsWrite fs (temp_target env ar guid)
      (FileData.zip (shapr_zip_entries ws guid
        (read_project_meta env.db guid).revision_id)), 1) := by
  simp only [temp_step]
  split
  · left; rfl
  · split
    · right; left; rfl
    · right; right; rfl

/-- Counterexample to C7 as stated: in `envC7` the trashed project `g1` has a
thumbnail reference resolving to an existing resource from which extraction
would succeed, yet the TempState export writes only the archive and the
package directory holds no `thumbnail.jpg`. -/
theorem temp_export_no_thumbnail_cex :
    (read_project_meta (Db.opened queryG1) "g1").thumb_rel = some "t.bin" ∧
    envC7.resources "t.bin" = some [255, 216, 1, 255, 217] ∧
    extract_jpg_image [255, 216, 1, 255, 217] = some [255, 216, 1, 255, 217] ∧
    export_tempstate_projects envC7 true [] = Except.ok (fsC7, 1) ∧
    fsExists fsC7 ["out", "Trashed", "T", "thumbnail.jpg"] = false :=
  ⟨rfl, rfl, rfl, rfl, by decide⟩

/-- C8 amended: an uncaught archive-write failure on one project aborts the
whole export loop immediately — the error propagates and no later project is
attempted. -/
theorem export_write_failure_aborts (env : Env) (ar : Bool) (fs : FS)
    (pid : String) (ws : List Nat) (rest : List (String × List Nat))
    (hp : env.projects = (pid, ws) :: rest)
    (h1 : fsExists fs (active_target env ar pid) = false)
    (h2 : env.writeFails (active_target env ar pid) = true) :
    export_active_projects env ar fs = Except.error fs := by
  have hstep : active_step env ar fs pid ws = Except.error fs := by
    simp only [active_step]
    rw [if_neg (by rw [h1]; exact Bool.false_ne_true), if_pos h2]
  unfold export_active_projects
  rw [hp, run_steps]
  dsimp only
  rw [hstep]

/-- Witness for the amended C8 at the concrete world `envC8`. -/
theorem export_write_failure_aborts_witness :
    export_active_projects envC8 true [] = Except.error [] :=
  export_write_failure_aborts envC8 true [] "a" [1] [("b", [2])] rfl (by decide)
    (by decide)

/-- Counterexample to C8 as stated: in `envC8` the write of the first
project's archive fails; the run ends in an error with nothing on disk, so
the second project — whose own write would have succeeded — was never
attempted. -/
theorem export_abort_cex :
    export_active_projects envC8 true [] = Except.error [] ∧
    envC8.projects.length = 2 ∧
    envC8.writeFails (active_target envC8 true "b") = false ∧
    active_step envC8 true [] "b" [2] =
      Except.ok ([(active_target envC8 true "b",
        FileData.zip (shapr_zip_entries [2] "b" 0))], 1) :=
  ⟨rfl, rfl, by decide, rfl⟩

/-- C10: exporting a trashed project with `add_revision = false` writes an
archive whose embedded metadata keeps the store's resolved (nonzero) revision
in `revisionID`, while the file name it is stored under carries no revision
marker — the two can disagree about the project's revision. -/
theorem temp_metadata_keeps_store_revision (env : Env) (guid : String)
    (ws : List Nat) (fs : FS)
    (h1 : fsExists fs (temp_target env false guid) = false)
    (h2 : env.writeFails (temp_target env false guid) = false)
    (h3 : (read_project_meta env.db guid).revision_id ≠ 0) :
    temp_step env false fs guid ws =
      Except.ok (fsWrite fs (temp_target env false guid)
        (FileData.zip (shapr_zip_entries ws guid
          (read_project_meta env.db guid).revision_id)), 1) ∧
    jsonField (build_metadata guid (read_project_meta env.db guid).revision_id)
        "revisionID" = some (Json.jnum (read_project_meta env.db guid).revision_id) ∧
    jsonField (build_metadata guid (read_project_meta env.db guid).revision_id)
        "revisionID" ≠ some (Json.jnum 0) ∧
    (temp_target env false guid).getLast? =
      some (py_or_str (sanitize (temp_title (read_project_meta env.db guid) guid))
        "untitled" ++ ".shapr") := by
  have hfield : jsonField (build_metadata guid (read_project_meta env.db guid).revision_id)
      "revisionID" = some (Json.jnum (read_project_meta env.db guid).revision_id) := by
    simp only [jsonField, build_metadata, py_or_int]
    split
    · rename_i hz
      rw [hz]
      rfl
    · rfl
  refine ⟨?_, hfield, ?_, ?_⟩
  · simp only [temp_step]
    rw [if_neg (by rw [h1]; exact Bool.false_ne_true), if_neg (by rw [h2]; exact Bool.false_ne_true)]
  · rw [hfield]
    intro hc
    apply h3
    have := Option.some.inj hc
    exact Json.jnum.inj this
  · show (make_zip_name _ _ _ _ _).getLast? = _
    exact make_zip_name_getLast_no_rev _ _ _ _

/-- Witness for C10 at the concrete world `envC10`: store revision 5, file
name `T.shapr` with no revision marker, metadata `revisionID` 5. -/
theorem temp_metadata_keeps_store_revision_witness :
    temp_step envC10 false [] "g1" [9] =
      Except.ok (fsWrite [] (temp_target envC10 false "g1")
        (FileData.zip (shapr_zip_entries [9] "g1"
          (read_project_meta envC10.db "g1").revision_id)), 1) ∧
    jsonField (build_metadata "g1" (read_project_meta envC10.db "g1").revision_id)
        "revisionID" = some (Json.jnum (read_project_meta envC10.db "g1").revision_id) ∧
    jsonField (build_metadata "g1" (read_project_meta envC10.db "g1").revision_id)
        "revisionID" ≠ some (Json.jnum 0) ∧
    (temp_target envC10 false "g1").getLast? =
      some (py_or_str (sanitize (temp_title (read_project_meta envC10.db "g1") "g1"))
        "untitled" ++ ".shapr") :=
  temp_metadata_keeps_store_revision envC10 "g1" [9] [] (by decide) (by decide)
    (by decide)
